import Mathlib

/-!
Verification development for the pyscaff workflow orchestration engine.

The definitions below are a shallow embedding of the Python source:
  * `app/executors/conditional.py`  — expression validation and namespace merge
  * `app/executors/form.py`         — form field validation and the form pause
  * `app/executors/ai_generate.py`  — variable extraction and the retry loop
  * `app/executors/approval.py`     — approval pause
  * `app/engine/orchestrator.py`    — start_run / resume_run / advance loop

JSON-shaped Python values are modelled by `JValue`; Python `dict`s whose keys
are strings are modelled by association lists with Python-dict assignment
semantics (`dinsert` replaces in place, appends otherwise).  External
collaborators that the source calls but that are out of the core — the
asteval interpreter, the AI provider, the jsonschema validator, and
`secrets.token_urlsafe` — are parameters of an `Env` record.
-/

namespace PyScaff

/-- JSON-shaped values: the payload type of context layers, step configs and
step outputs (spec §9: a tagged variant over string, number, bool, array,
map, null). -/
inductive JValue where
  | null : JValue
  | bool (b : Bool) : JValue
  | num (n : Int) : JValue
  | str (s : String) : JValue
  | arr (xs : List JValue) : JValue
  | obj (kvs : List (String × JValue)) : JValue

/-- A Python `dict[str, Any]`, as an association list in insertion order. -/
abbrev Dict := List (String × JValue)

/-- Python truthiness (`bool(v)`) of a JSON-shaped value. -/
def JValue.truthy : JValue → Bool
  | .null => false
  | .bool b => b
  | .num n => n != 0
  | .str s => s != ""
  | .arr xs => !xs.isEmpty
  | .obj kvs => !kvs.isEmpty

/-- Is the value a Python `str`? (`isinstance(value, str)`). -/
def JValue.isStr : JValue → Bool
  | .str _ => true
  | _ => false

/-- Dictionary lookup (`d[k]` / `k in d`). -/
def dlookup : Dict → String → Option JValue
  | [], _ => none
  | (k', v) :: rest, k => if k' = k then some v else dlookup rest k

/-- Python dict assignment `d[k] = v`: replaces the value in place when the
key exists, appends at the end otherwise. -/
def dinsert : Dict → String → JValue → Dict
  | [], k, v => [(k, v)]
  | (k', v') :: rest, k, v =>
    if k' = k then (k, v) :: rest else (k', v') :: dinsert rest k v

/-- Python `d.update(e)`: assign every pair of `e` into `d`, in order. -/
def dupdate (d : Dict) (e : Dict) : Dict :=
  e.foldl (fun acc p => dinsert acc p.1 p.2) d

/-- The three context layers of a run (`Run.context`). -/
structure Context where
  static : Dict
  profile : Dict
  runtime : Dict

/- ----------------------------------------------------------------------
Conditional executor: expression validation (conditional.py,
`ConditionalExecutor._validate_expression`).
---------------------------------------------------------------------- -/

/-- `MAX_EXPRESSION_LENGTH` from conditional.py. -/
def MAX_EXPRESSION_LENGTH : Nat := 256

/-- A character of the class `[a-zA-Z_]` of the attribute-access regex. -/
def isIdentChar (c : Char) : Bool :=
  (('a' ≤ c && c ≤ 'z') || ('A' ≤ c && c ≤ 'Z')) || c = '_'

/-- `re.search(r"[a-zA-Z_]\.", expression)`: some identifier character is
immediately followed by a dot. -/
def hasIdentDot : List Char → Bool
  | a :: b :: rest => (isIdentChar a && b = '.') || hasIdentDot (b :: rest)
  | _ => false

/-- `"__" in expression`: two adjacent underscores occur. -/
def containsDunder : List Char → Bool
  | a :: b :: rest => (a = '_' && b = '_') || containsDunder (b :: rest)
  | _ => false

/-- Python `not expression or not expression.strip()`: the string is empty
or consists of whitespace only. -/
def strippedEmpty (e : String) : Bool :=
  e.data.all (·.isWhitespace)

/-- `ConditionalExecutor._validate_expression` (conditional.py lines 69-95):
empty check, length check, then the attribute-access check guarded by the
presence of `__` or `.` in the text. -/
def validateExpression (e : String) : Except String Unit :=
  if strippedEmpty e then
    .error "Expression cannot be empty"
  else if e.length > MAX_EXPRESSION_LENGTH then
    .error "Expression exceeds maximum length of 256 characters"
  else if containsDunder e.data || e.data.contains '.' then
    if hasIdentDot e.data then
      .error "Attribute access not allowed in expressions"
    else
      .ok ()
  else
    .ok ()

/-- `ConditionalExecutor._merge_context_namespaces`: namespace = {} updated
with static, then profile, then runtime (later layers override earlier). -/
def mergeContextNamespaces (ctx : Context) : Dict :=
  dupdate (dupdate (dupdate [] ctx.static) ctx.profile) ctx.runtime

/- ----------------------------------------------------------------------
Form executor (form.py).
---------------------------------------------------------------------- -/

/-- A form field descriptor (`StepConfigField` in schemas.py). -/
structure FieldDef where
  key : String
  type : String
  required : Bool

/-- `model_dump()` of one field descriptor (the `pattern` field of
`StepConfigField` defaults to `None`). -/
def fieldToJ (f : FieldDef) : JValue :=
  .obj [("key", .str f.key), ("type", .str f.type),
        ("required", .bool f.required), ("pattern", .null)]

/-- `FormExecutor.validate_fields` (form.py lines 19-57), with the
`validated` dict threaded as an accumulator exactly as the Python loop
builds it. -/
def validateFieldsGo : List FieldDef → Dict → Dict → Except String Dict
  | [], _, validated => .ok validated
  | f :: fs, inputs, validated =>
    match dlookup inputs f.key with
    | none =>
      if f.required then
        .error ("Required field '" ++ f.key ++ "' is missing")
      else
        validateFieldsGo fs inputs validated
    | some v =>
      if f.type != "text" && f.type != "textarea" then
        .error ("Field type '" ++ f.type ++ "' not supported. " ++
                "Only 'text' and 'textarea' are allowed.")
      else
        match v with
        | .str s => validateFieldsGo fs inputs (dinsert validated f.key (.str s))
        | _ => .error ("Field '" ++ f.key ++ "' must be a string")

/-- Entry point of `validate_fields`: the accumulator starts empty. -/
def validateFields (fields : List FieldDef) (inputs : Dict) : Except String Dict :=
  validateFieldsGo fields inputs []

/-- One configured field passes validation against `inputs`: absent fields
must be optional; present fields must have type text/textarea and a string
value. -/
def fieldOk (inputs : Dict) (f : FieldDef) : Bool :=
  match dlookup inputs f.key with
  | none => !f.required
  | some v => (f.type == "text" || f.type == "textarea") && v.isStr

/-- `FormExecutor.execute` (form.py lines 59-77): write the fields schema to
`context.runtime[<step_id>_schema]` and return the pause signal. -/
def formExecute (fields : List FieldDef) (ctx : Context) (stepId : String) :
    Context × Dict :=
  let schemaJ : JValue := .arr (fields.map fieldToJ)
  ({ ctx with runtime := dinsert ctx.runtime (stepId ++ "_schema") schemaJ },
   [("pause", .bool true), ("waiting_for", .str "form"),
    ("fields_schema", schemaJ)])

/- ----------------------------------------------------------------------
AI-generate executor (ai_generate.py).
---------------------------------------------------------------------- -/

/-- `AIGenerateExecutor.MAX_RETRIES`. -/
def MAX_RETRIES : Nat := 2

/-- The layered search of `_extract_variables` (ai_generate.py lines 59-65):
the first of static, profile, runtime whose map contains the key wins,
returning that layer's value even when it is null. -/
def lookupLayered (ctx : Context) (k : String) : Option JValue :=
  match dlookup ctx.static k with
  | some v => some v
  | none =>
    match dlookup ctx.profile k with
    | some v => some v
    | none => dlookup ctx.runtime k

/-- `AIGenerateExecutor._extract_variables` (ai_generate.py lines 45-74).
The Python initialises `value = None`, takes the first layer containing the
key (breaking), and raises when `value is None` — so a key bound to null in
the first containing layer is indistinguishable from a missing key. -/
def extractVariablesGo (ctx : Context) : List String → Dict → Except String Dict
  | [], acc => .ok acc
  | v :: vs, acc =>
    match lookupLayered ctx v with
    | none =>
      .error ("Variable '" ++ v ++ "' not found in context. " ++
              "Checked: static, profile, runtime")
    | some .null =>
      .error ("Variable '" ++ v ++ "' not found in context. " ++
              "Checked: static, profile, runtime")
    | some w => extractVariablesGo ctx vs (dinsert acc v w)

/-- Entry point of `_extract_variables`. -/
def extractVariables (vars : List String) (ctx : Context) : Except String Dict :=
  extractVariablesGo ctx vars []

/-- Outcome of the retry loop of `AIGenerateExecutor.execute`:
`done` = the success return, `exhausted` = the pause return from an except
branch, `fallback` = the "should never reach here" return after the loop. -/
inductive AiOutcome where
  | done (output : JValue) (rc : Nat)
  | exhausted (err : String) (rc : Nat)
  | fallback (err : Option String) (rc : Nat)

/-- One loop iteration's provider call plus schema validation
(ai_generate.py lines 102-111 with the two except branches): a provider
exception yields its message; a schema failure yields the
`Schema validation failed:` message; otherwise the decoded output. -/
def aiAttempt (provide : Nat → Except String JValue)
    (check : JValue → Option String) (i : Nat) : Except String JValue :=
  match provide i with
  | .error e => .error e
  | .ok out =>
    match check out with
    | some m => .error ("Schema validation failed: " ++ m)
    | none => .ok out

/-- The `while retry_count <= MAX_RETRIES` loop (ai_generate.py lines
101-159).  `b` is the remaining iteration budget (`maxR + 1 - rc` at every
reachable call), `rc` the current `retry_count`, `le` the `last_error`.
The second component counts the provider calls the loop makes. -/
def aiLoop (attempt : Nat → Except String JValue) (maxR : Nat) :
    Nat → Nat → Option String → AiOutcome × Nat
  | 0, rc, le => (.fallback le rc, 0)
  | b + 1, rc, _le =>
    match attempt rc with
    | .ok out => (.done out rc, 1)
    | .error e =>
      if rc + 1 ≤ maxR then
        let r := aiLoop attempt maxR b (rc + 1) (some e)
        (r.1, r.2 + 1)
      else
        (.exhausted e (rc + 1), 1)

/- ----------------------------------------------------------------------
External collaborators (spec §6): the asteval interpreter, the AI provider,
the jsonschema validator and the token generator are out of the core and
enter the model as parameters.
---------------------------------------------------------------------- -/

/-- The environment of external collaborators.

  * `evalExpr` models conditional.py lines 137-166: the asteval interpreter
    evaluating the expression against the flat namespace, together with the
    source's mapping of interpreter errors to raised exceptions; it returns
    the computed value or the message of the raised exception.
  * `providerAttempt tid vars schema i` models the i-th
    `provider.generate(...)` call of one `AIGenerateExecutor.execute`
    invocation: the decoded object or the raised exception's message.
  * `schemaCheck schema instance` models `jsonschema.validate`: `none` on
    success, `some message` for a `ValidationError`.
  * `approvalToken` models `secrets.token_urlsafe(32)`. -/
structure Env where
  evalExpr : String → Dict → Except String JValue
  providerAttempt : String → Dict → JValue → Nat → Except String JValue
  schemaCheck : JValue → JValue → Option String
  approvalToken : String

/-- `ConditionalExecutor.execute` (conditional.py lines 117-172):
validate, merge the namespaces, evaluate, return the boolean coercion. -/
def conditionalExecute (env : Env) (whenExpr : String) (ctx : Context) :
    Except String (Context × Dict) := do
  let _ ← validateExpression whenExpr
  let ns := mergeContextNamespaces ctx
  let v ← env.evalExpr whenExpr ns
  .ok (ctx, [("result", .bool v.truthy), ("expression", .str whenExpr)])

/-- `AIGenerateExecutor.execute` (ai_generate.py lines 76-159): extract the
variables, run the retry loop, then either store the output in
`context.runtime[<step_id>_output]` and return the success dict, or return
the manual-fix pause dict. -/
def aiGenerateExecute (env : Env) (tid : String) (vars : List String)
    (schema : JValue) (ctx : Context) (stepId : String) :
    Except String (Context × Dict) :=
  match extractVariables vars ctx with
  | .error e => .error e
  | .ok vmap =>
  match (aiLoop (aiAttempt (env.providerAttempt tid vmap schema)
      (env.schemaCheck schema)) MAX_RETRIES (MAX_RETRIES + 1) 0 none).1 with
  | .done out rc =>
    .ok ({ ctx with runtime := dinsert ctx.runtime (stepId ++ "_output") out },
         [("pause", .bool false), ("output", out),
          ("retry_count", .num (Int.ofNat rc))])
  | .exhausted e rc =>
    .ok (ctx, [("pause", .bool true), ("waiting_for", .str "manual_fix"),
               ("error", .str e), ("retry_count", .num (Int.ofNat rc))])
  | .fallback le rc =>
    .ok (ctx, [("pause", .bool true), ("waiting_for", .str "manual_fix"),
               ("error", .str (le.getD "Unknown error")),
               ("retry_count", .num (Int.ofNat rc))])

/-- `ApprovalExecutor.execute` (approval.py lines 28-68): mint the token,
record the pending approval in `context.runtime[<step_id>_approval]`, emit
the pause signal (the mock notification emails are pure logging). -/
def approvalExecute (env : Env) (approvers : List String) (ctx : Context)
    (stepId : String) : Context × Dict :=
  let tok := env.approvalToken
  let approversJ : JValue := .arr (approvers.map .str)
  let meta : JValue := .obj [("token", .str tok), ("approvers", approversJ),
                             ("status", .str "pending")]
  ({ ctx with runtime := dinsert ctx.runtime (stepId ++ "_approval") meta },
   [("pause", .bool true), ("waiting_for", .str "approval"),
    ("approval_token", .str tok), ("approvers", approversJ)])

/- ----------------------------------------------------------------------
Data model of the engine (db/models.py as used by orchestrator.py).
---------------------------------------------------------------------- -/

/-- Type-specific step configuration (the `config` JSON, already parsed the
way the orchestrator parses it into the pydantic config classes).  A step
whose stored config does not fit its type is the pydantic parse failure. -/
inductive StepConfig where
  | form (fields : List FieldDef) : StepConfig
  | ai (template_id : String) (varNames : List String) (json_schema : JValue) : StepConfig
  | cond (whenExpr : String) : StepConfig
  | approval (approvers : List String) : StepConfig
  | empty : StepConfig

/-- A step definition row.  `next = none` models a Python `next` that is
`None` or the empty string (both falsy in the advance loop). -/
structure Step where
  step_id : String
  type : String
  next : Option String
  config : StepConfig

/-- A workflow row with its steps. -/
structure Workflow where
  id : String
  version : Nat
  start_step : String
  steps : List Step

/-- A run row.  `current_step = none` models `None` or the empty string
(both falsy in the advance loop). -/
structure Run where
  id : String
  workflow_id : String
  workflow_version : Nat
  status : String
  current_step : Option String
  context : Context
  idempotency_key : Option String

/-- A run_steps history row (the uuid primary key, `started_at` and
`ended_at` timestamps are not modelled; records are identified by their
position in the append-only list). -/
structure RunStepRec where
  run_id : String
  step_id : String
  type : String
  status : String
  output : Option Dict
  error : Option String

/-- The durable state: the three tables the orchestrator touches. -/
structure DB where
  workflows : List Workflow
  runs : List Run
  run_steps : List RunStepRec

/-- Errors the engine raises (all `ValueError`/exceptions in the source;
the constructors record which raise site produced the message). -/
inductive EngineError where
  | workflowNotFound (wid : String) : EngineError
  | runNotFound (rid : String) : EngineError
  | notWaiting (rid status : String) : EngineError
  | stepNotFound (sid : String) : EngineError
  | stepFailed (msg : String) : EngineError
  | resumeValidation (msg : String) : EngineError

def findWorkflow (db : DB) (wid : String) : Option Workflow :=
  db.workflows.find? (fun w => w.id = wid)

def findRun (db : DB) (rid : String) : Option Run :=
  db.runs.find? (fun r => r.id = rid)

/-- The idempotency lookup of `start_run` (orchestrator.py lines 50-56):
the first run whose `idempotency_key` equals the given key, matching on the
key alone. -/
def findRunByKey (runs : List Run) (k : String) : Option Run :=
  runs.find? (fun r => r.idempotency_key = some k)

/-- `step_map = {step.step_id: step for step in workflow.steps}` followed by
`step_map.get(sid)`: on duplicate step_ids the later step wins. -/
def lookupStep (steps : List Step) (sid : String) : Option Step :=
  steps.foldl (fun acc s => if s.step_id = sid then some s else acc) none

/-- Commit an updated run row (replace by id). -/
def putRun (db : DB) (run : Run) : DB :=
  { db with runs := db.runs.map (fun r => if r.id = run.id then run else r) }

/-- Model of `str(uuid.uuid4())` for run ids; theorems needing global
uniqueness hypothesise that this id is fresh for the db, which is what the
source assumes of uuid4. -/
def freshRunId (db : DB) : String :=
  "run-" ++ toString db.runs.length

/-- `WorkflowEngine.execute_step` (orchestrator.py lines 297-335): route by
`step.type`; a config that does not parse into the type's pydantic class is
the raised pydantic validation error. -/
def executeStep (env : Env) (step : Step) (ctx : Context) :
    Except String (Context × Dict) :=
  if step.type = "form" then
    match step.config with
    | .form fields => .ok (formExecute fields ctx step.step_id)
    | _ => .error "invalid config for form step"
  else if step.type = "ai_generate" then
    match step.config with
    | .ai tid vars schema => aiGenerateExecute env tid vars schema ctx step.step_id
    | _ => .error "invalid config for ai_generate step"
  else if step.type = "conditional" then
    match step.config with
    | .cond w => conditionalExecute env w ctx
    | _ => .error "invalid config for conditional step"
  else if step.type = "api_call" then
    .error "API call executor not yet implemented (WP-006)"
  else if step.type = "approval" then
    match step.config with
    | .approval apprs => .ok (approvalExecute env apprs ctx step.step_id)
    | _ => .error "invalid config for approval step"
  else
    .error ("Unsupported step type: " ++ step.type)

/-- The completed history record appended on success or pause
(orchestrator.py lines 228-254). -/
def completedRec (run : Run) (step : Step) (result : Dict) : RunStepRec :=
  { run_id := run.id, step_id := step.step_id, type := step.type,
    status := "completed", output := some result, error := none }

/-- The failed history record appended in the except branch
(orchestrator.py lines 281-290). -/
def failedRec (run : Run) (step : Step) (msg : String) : RunStepRec :=
  { run_id := run.id, step_id := step.step_id, type := step.type,
    status := "failed", output := none, error := some msg }

/-- The advance loop of `WorkflowEngine._execute_workflow` (orchestrator.py
lines 208-295).  Each iteration is one transaction; the except branch's
rollback discards the failing step's uncommitted context mutation, which
the pure model renders by keeping the iteration-entry context.  Returns the
run's final committed row, the appended history records, and the re-raised
exception when one escapes. -/
def advanceLoop (env : Env) (steps : List Step) :
    Nat → Run → List RunStepRec → Run × List RunStepRec × Option EngineError
  | 0, run, hist => (run, hist, none)
  | fuel + 1, run, hist =>
    match run.current_step with
    | none => (run, hist, none)
    | some cs =>
      match lookupStep steps cs with
      | none =>
        ({ run with status := "failed" }, hist, some (.stepNotFound cs))
      | some step =>
        match executeStep env step run.context with
        | .error msg =>
          ({ run with status := "failed" },
           hist ++ [failedRec run step msg], some (.stepFailed msg))
        | .ok (ctx1, result) =>
          if ((dlookup result "pause").getD .null).truthy then
            ({ run with status := "waiting", context := ctx1 },
             hist ++ [completedRec run step result], none)
          else
            match step.next with
            | none =>
              ({ run with context := ctx1, current_step := none,
                          status := "completed" },
               hist ++ [completedRec run step result], none)
            | some nxt =>
              advanceLoop env steps fuel
                { run with context := ctx1, current_step := some nxt }
                (hist ++ [completedRec run step result])

/-- `WorkflowEngine._execute_workflow` on the durable state: re-fetch the
workflow, run the advance loop, commit the run row and the history. -/
def execWorkflow (env : Env) (fuel : Nat) (db : DB) (run : Run) :
    DB × Option EngineError :=
  match findWorkflow db run.workflow_id with
  | none => (db, some (.workflowNotFound run.workflow_id))
  | some wf =>
    let r := advanceLoop env wf.steps fuel run []
    ({ putRun db r.1 with run_steps := db.run_steps ++ r.2.1 }, r.2.2)

/-- `WorkflowEngine.start_run` (orchestrator.py lines 33-89).  Python
treats a `None` or empty idempotency key as absent (`if idempotency_key:`).
Returns the new durable state and the returned run or raised error. -/
def startRun (env : Env) (fuel : Nat) (db : DB) (workflow_id : String)
    (inputs : Dict) (idem : Option String) : DB × Except EngineError Run :=
  let keyed : Option String :=
    match idem with
    | some k => if k = "" then none else some k
    | none => none
  match keyed with
  | some k =>
    match findRunByKey db.runs k with
    | some existing => (db, .ok existing)
    | none => startRunFresh env fuel db workflow_id inputs idem
  | none => startRunFresh env fuel db workflow_id inputs idem
where
  /-- The fresh-run path: fetch the workflow, create the run in state
  running with `context = {static: {}, profile: {}, runtime: copy(inputs)}`,
  commit, execute. -/
  startRunFresh (env : Env) (fuel : Nat) (db : DB) (workflow_id : String)
      (inputs : Dict) (idem : Option String) : DB × Except EngineError Run :=
    match findWorkflow db workflow_id with
    | none => (db, .error (.workflowNotFound workflow_id))
    | some wf =>
      let run : Run :=
        { id := freshRunId db, workflow_id := workflow_id,
          workflow_version := wf.version, status := "running",
          current_step := if wf.start_step = "" then none else some wf.start_step,
          context := { static := [], profile := [], runtime := inputs },
          idempotency_key := idem }
      let db1 : DB := { db with runs := db.runs ++ [run] }
      let r := execWorkflow env fuel db1 run
      match r.2 with
      | some e => (r.1, .error e)
      | none => (r.1, .ok ((findRun r.1 run.id).getD run))

/-- The input-validation and merge block of `WorkflowEngine.resume_run`
(orchestrator.py lines 113-170), up to the commit that sets the status back
to running.  Python skips the whole block when `inputs` is `None` or empty
(`if inputs:`), and skips validation silently when the workflow or the
current step cannot be looked up. -/
def resumePrepare (db : DB) (run : Run) (inputs : Option Dict) :
    Except EngineError Run :=
  let mergeOnly (ins : Dict) : Run :=
    { run with status := "running",
               context := { run.context with
                            runtime := dupdate run.context.runtime ins } }
  match inputs with
  | none => .ok { run with status := "running" }
  | some ins =>
    if ins.isEmpty then .ok { run with status := "running" }
    else
      match run.current_step with
      | none => .ok (mergeOnly ins)
      | some cs =>
        match findWorkflow db run.workflow_id with
        | none => .ok (mergeOnly ins)
        | some wf =>
          match lookupStep wf.steps cs with
          | none => .ok (mergeOnly ins)
          | some st =>
            if st.type = "form" then
              match st.config with
              | .form fields =>
                match validateFields fields ins with
                | .error m => .error (.resumeValidation m)
                | .ok validated =>
                  .ok { run with
                        status := "running", current_step := st.next,
                        context := { run.context with
                                     runtime := dupdate run.context.runtime validated } }
              | _ => .error (.resumeValidation "invalid config for form step")
            else if st.type = "approval" then
              match dlookup ins "approval" with
              | none => .error (.resumeValidation "Missing 'approval' key in resume data")
              | some ad =>
                match ad with
                | .obj adFields =>
                  match dlookup adFields "approved" with
                  | none => .error (.resumeValidation "Missing 'approved' field in approval data")
                  | some approvedVal =>
                    let key := cs ++ "_approval"
                    let rt := run.context.runtime
                    match dlookup rt key with
                    | some (.obj o) =>
                      let o1 := dinsert o "status"
                        (.str (if approvedVal.truthy then "approved" else "rejected"))
                      let o2 := dinsert o1 "comments"
                        ((dlookup adFields "comments").getD (.str ""))
                      .ok { run with
                            status := "running", current_step := st.next,
                            context := { run.context with
                                         runtime := dupdate (dinsert rt key (.obj o2)) ins } }
                    | some _ =>
                      -- item assignment on a non-dict raises TypeError
                      .error (.resumeValidation "TypeError: approval metadata is not a dictionary")
                    | none =>
                      .ok { run with
                            status := "running", current_step := st.next,
                            context := { run.context with
                                         runtime := dupdate rt ins } }
                | _ => .error (.resumeValidation "Approval data must be a dictionary")
            else
              .ok (mergeOnly ins)

/-- `WorkflowEngine.resume_run` (orchestrator.py lines 91-179): fetch the
run, check the waiting status, validate and merge, commit, re-enter the
advance loop. -/
def resumeRun (env : Env) (fuel : Nat) (db : DB) (run_id : String)
    (inputs : Option Dict) : DB × Except EngineError Run :=
  match findRun db run_id with
  | none => (db, .error (.runNotFound run_id))
  | some run =>
    if run.status ≠ "waiting" then
      (db, .error (.notWaiting run_id run.status))
    else
      match resumePrepare db run inputs with
      | .error e => (db, .error e)
      | .ok run1 =>
        let db1 := putRun db run1
        let r := execWorkflow env fuel db1 run1
        match r.2 with
        | some e => (r.1, .error e)
        | none => (r.1, .ok ((findRun r.1 run1.id).getD run1))

/- ----------------------------------------------------------------------
Concrete scenario data used by the witness theorems.
---------------------------------------------------------------------- -/

/-- The characters of the class `[0-9]`. -/
def isDigitChar (c : Char) : Bool :=
  ['0', '1', '2', '3', '4', '5', '6', '7', '8', '9'].contains c

/-- Every dot of the text is directly preceded by a digit, i.e. sits inside
a numeric literal such as `3.14`. -/
def dotsDigitOnly : List Char → Bool
  | a :: b :: rest => (!(b = '.') || isDigitChar a) && dotsDigitOnly (b :: rest)
  | _ => true

/-- A concrete environment: evaluation always raises, the provider always
raises, schema validation always passes, and the token is fixed. -/
def demoEnv : Env :=
  { evalExpr := fun _ _ => .error "eval disabled",
    providerAttempt := fun _ _ _ _ => .error "provider down",
    schemaCheck := fun _ _ => none,
    approvalToken := "tok" }

/-- A workflow of a single terminal approval step. -/
def demoApprovalWf : Workflow :=
  { id := "wfa", version := 1, start_step := "approval_step",
    steps := [{ step_id := "approval_step", type := "approval", next := none,
                config := .approval ["m@x"] }] }

/-- A database holding only the approval workflow. -/
def demoDB : DB := { workflows := [demoApprovalWf], runs := [], run_steps := [] }

/-- The database after starting the approval workflow without a key: its
run `run-0` is waiting at the approval step. -/
def demoWaitingDB : DB := (startRun demoEnv 10 demoDB "wfa" [] none).1

/-- The run produced by a keyed start of the approval workflow on `demoDB`
with inputs `{a: 1}` (the value of the first caller's run in the C2
witness). -/
def demoKeyedRun : Run :=
  { id := "run-0", workflow_id := "wfa", workflow_version := 1,
    status := "waiting", current_step := some "approval_step",
    context := { static := [], profile := [],
                 runtime := [("a", .num 1),
                             ("approval_step_approval",
                              .obj [("token", .str "tok"),
                                    ("approvers", .arr [.str "m@x"]),
                                    ("status", .str "pending")])] },
    idempotency_key := some "k" }

/-- A workflow of a single conditional step whose expression is empty, so
its execution always raises `Expression cannot be empty`. -/
def demoCondWf : Workflow :=
  { id := "wfc", version := 1, start_step := "s1",
    steps := [{ step_id := "s1", type := "conditional", next := none,
                config := .cond "" }] }

/-- A database holding only the failing conditional workflow. -/
def demoCondDB : DB := { workflows := [demoCondWf], runs := [], run_steps := [] }

/-- A pre-existing run carrying idempotency key `k` whose workflow id does
not name any stored workflow. -/
def demoOrphanRun : Run :=
  { id := "r1", workflow_id := "w-gone", workflow_version := 1,
    status := "completed", current_step := none,
    context := { static := [], profile := [], runtime := [] },
    idempotency_key := some "k" }

/-- A database holding the orphan keyed run and no workflows at all. -/
def demoOrphanDB : DB :=
  { workflows := [], runs := [demoOrphanRun], run_steps := [] }

/-- A workflow of a single terminal AI step with no variables. -/
def demoAiWf : Workflow :=
  { id := "wfi", version := 1, start_step := "gen",
    steps := [{ step_id := "gen", type := "ai_generate", next := none,
                config := .ai "tmpl" [] .null }] }

/-- A string of `n` letters `a`. -/
def letters (n : Nat) : String := String.mk (List.replicate n 'a')

/-- A context binding `x` to null in the static layer and to 5 in the
runtime layer. -/
def demoCtx : Context :=
  { static := [("x", .null)], profile := [], runtime := [("x", .num 5)] }

/-- The run stored in `demoWaitingDB`: waiting at the approval step with
the pending approval metadata in its runtime context. -/
def demoWaitingRun : Run :=
  { id := "run-0", workflow_id := "wfa", workflow_version := 1,
    status := "waiting", current_step := some "approval_step",
    context := { static := [], profile := [],
                 runtime := [("approval_step_approval",
                              .obj [("token", .str "tok"),
                                    ("approvers", .arr [.str "m@x"]),
                                    ("status", .str "pending")])] },
    idempotency_key := none }

/-- A form schema: required text field `name`, optional textarea `bio`. -/
def demoFields : List FieldDef :=
  [{ key := "name", type := "text", required := true },
   { key := "bio", type := "textarea", required := false }]

/-- Form inputs with the required field present and one extra key. -/
def demoFormInputs : Dict := [("name", .str "d"), ("x", .num 1)]

end PyScaff

namespace PyScaff

/- ----------------------------------------------------------------------
Helper lemmas.
---------------------------------------------------------------------- -/

theorem dlookup_dinsert (d : Dict) (k : String) (v : JValue) (k' : String) :
    dlookup (dinsert d k v) k' = if k = k' then some v else dlookup d k' := by
  induction d with
  | nil => simp [dinsert, dlookup]
  | cons p rest ih =>
    obtain ⟨k1, v1⟩ := p
    by_cases h1 : k1 = k
    · subst h1
      by_cases h2 : k1 = k'
      · subst h2; simp [dinsert, dlookup]
      · simp [dinsert, dlookup, h2]
    · by_cases h2 : k1 = k'
      · subst h2
        have hkk : ¬ k = k1 := fun h => h1 h.symm
        simp [dinsert, dlookup, h1, hkk]
      · simp [dinsert, dlookup, h1, h2, ih]

theorem hasIdentDot_contains_dot :
    ∀ l : List Char, hasIdentDot l = true → l.contains '.' = true := by
  intro l
  induction l with
  | nil => intro h; simp [hasIdentDot] at h
  | cons a rest ih =>
    intro h
    match rest, ih, h with
    | b :: rs, ih, h =>
      rw [hasIdentDot] at h
      simp only [Bool.or_eq_true, Bool.and_eq_true, decide_eq_true_eq] at h
      rw [List.contains_cons]
      rcases h with ⟨_, hb⟩ | h2
      · subst hb
        simp
      · have h3 := ih h2
        rw [h3]
        simp

theorem isIdentChar_of_digit_false (c : Char) (h : isDigitChar c = true) :
    isIdentChar c = false := by
  have hm : c ∈ ['0', '1', '2', '3', '4', '5', '6', '7', '8', '9'] :=
    List.elem_iff.mp h
  simp only [List.mem_cons, List.not_mem_nil, or_false] at hm
  rcases hm with rfl | rfl | rfl | rfl | rfl | rfl | rfl | rfl | rfl | rfl <;> decide

theorem dotsDigitOnly_no_identDot :
    ∀ l : List Char, dotsDigitOnly l = true → hasIdentDot l = false := by
  intro l
  induction l with
  | nil => intro _; rfl
  | cons a rest ih =>
    intro h
    match rest, ih, h with
    | [], _, _ => rfl
    | b :: rs, ih, h =>
      rw [dotsDigitOnly] at h
      simp only [Bool.and_eq_true] at h
      obtain ⟨h1, h2⟩ := h
      rw [hasIdentDot]
      have htail : hasIdentDot (b :: rs) = false := ih h2
      rw [htail]
      by_cases hb : b = '.'
      · subst hb
        have hd : isDigitChar a = true := by simpa using h1
        simp [isIdentChar_of_digit_false a hd]
      · simp [hb]

end PyScaff

namespace PyScaff

/- ----------------------------------------------------------------------
C5 — the `__` / attribute-access checks of the sandbox.
---------------------------------------------------------------------- -/

/-- C5 counterexample: the expression `a__b > 1` contains the substring
`__` yet `_validate_expression` accepts it — there is no blanket reject on
the substring `__`. -/
theorem C5_counterexample_dunder_not_rejected :
    containsDunder ("a__b > 1").data = true ∧
    validateExpression "a__b > 1" = .ok () := by
  constructor
  · decide
  · rfl

/-- C5 (amended): for expressions that reach the pattern check (non-blank,
within the length cap), the sandbox rejects before evaluation exactly the
expressions in which a letter or underscore is immediately followed by a
dot; the substring `__` alone does not cause rejection, and an expression
all of whose dots are directly preceded by digits (dots only inside
numeric literals) passes. -/
theorem C5_attribute_access_check (e : String)
    (hne : strippedEmpty e = false)
    (hlen : e.length ≤ MAX_EXPRESSION_LENGTH) :
    (validateExpression e = .ok () ↔ hasIdentDot e.data = false) ∧
    (dotsDigitOnly e.data = true → validateExpression e = .ok ()) := by
  have hgt : ¬ (e.length > MAX_EXPRESSION_LENGTH) := by omega
  have hmain : validateExpression e = .ok () ↔ hasIdentDot e.data = false := by
    unfold validateExpression
    rw [if_neg (by simp [hne]), if_neg hgt]
    by_cases hg : (containsDunder e.data || e.data.contains '.') = true
    · rw [if_pos hg]
      by_cases hi : hasIdentDot e.data = true
      · rw [if_pos hi]
        simp [hi]
      · rw [if_neg hi]
        simp [Bool.not_eq_true] at hi
        simp [hi]
    · rw [if_neg hg]
      have hid : hasIdentDot e.data = false := by
        by_contra hc
        simp only [Bool.not_eq_false] at hc
        have hdot := hasIdentDot_contains_dot e.data hc
        simp only [Bool.or_eq_true] at hg
        exact hg (Or.inr hdot)
      simp [hid]
  exact ⟨hmain, fun hd => hmain.mpr (dotsDigitOnly_no_identDot e.data hd)⟩

/-- Witness for C5: `price > 3.14` has its only dot inside a numeric
literal and is accepted. -/
theorem C5_attribute_access_check_witness :
    validateExpression "price > 3.14" = .ok () :=
  (C5_attribute_access_check "price > 3.14" (by decide) (by decide)).2
    (by decide)

/- ----------------------------------------------------------------------
C8 — expression length and emptiness boundaries.
---------------------------------------------------------------------- -/

/-- C8: a 257-character expression is rejected as Invalid; an empty or
whitespace-only expression is rejected as Invalid before evaluation; a
256-character expression that is not blank and has no identifier-dot
pattern is accepted for evaluation. -/
theorem C8_expression_boundaries :
    (∀ e : String, e.length = 257 → (validateExpression e).isOk = false) ∧
    (∀ e : String, strippedEmpty e = true →
       validateExpression e = .error "Expression cannot be empty") ∧
    (∀ e : String, e.length = 256 → strippedEmpty e = false →
       hasIdentDot e.data = false → validateExpression e = .ok ()) := by
  refine ⟨?_, ?_, ?_⟩
  · intro e hlen
    unfold validateExpression
    by_cases hs : strippedEmpty e = true
    · rw [if_pos hs]
      rfl
    · rw [if_neg hs, if_pos (by rw [hlen]; decide)]
      rfl
  · intro e hs
    unfold validateExpression
    rw [if_pos hs]
  · intro e hlen hs hid
    unfold validateExpression
    rw [if_neg (by simp [hs]), if_neg (by rw [hlen]; decide)]
    by_cases hg : (containsDunder e.data || e.data.contains '.') = true
    · rw [if_pos hg, if_neg (by simp [hid])]
    · rw [if_neg hg]

set_option maxRecDepth 40000 in
/-- Witness for C8 at the concrete boundary strings. -/
theorem C8_expression_boundaries_witness :
    (validateExpression (letters 257)).isOk = false ∧
    validateExpression " " = .error "Expression cannot be empty" ∧
    validateExpression (letters 256) = .ok () :=
  ⟨C8_expression_boundaries.1 (letters 257)
     (by show (List.replicate 257 'a').length = 257; simp),
   C8_expression_boundaries.2.1 " " (by decide),
   C8_expression_boundaries.2.2 (letters 256)
     (by show (List.replicate 256 'a').length = 256; simp)
     (by decide) (by decide)⟩

/- ----------------------------------------------------------------------
C10 — null bindings in AI variable extraction.
---------------------------------------------------------------------- -/

/-- C10: variable extraction takes the first context layer containing the
key; a non-null hit is returned, while a first-layer null binding fails
extraction exactly like a missing variable — even when a later layer binds
the same key to a non-null value. -/
theorem C10_null_shadows_extraction :
    (∀ ctx k v, lookupLayered ctx k = some v → v ≠ .null →
       extractVariables [k] ctx = .ok [(k, v)]) ∧
    (∀ ctx k, lookupLayered ctx k = some .null →
       extractVariables [k] ctx =
         .error ("Variable '" ++ k ++ "' not found in context. " ++
                 "Checked: static, profile, runtime")) ∧
    (∀ ctx k w, dlookup ctx.static k = some .null →
       dlookup ctx.runtime k = some w →
       extractVariables [k] ctx =
         .error ("Variable '" ++ k ++ "' not found in context. " ++
                 "Checked: static, profile, runtime")) := by
  have hnull : ∀ ctx k, lookupLayered ctx k = some .null →
      extractVariables [k] ctx =
        .error ("Variable '" ++ k ++ "' not found in context. " ++
                "Checked: static, profile, runtime") := by
    intro ctx k h
    unfold extractVariables extractVariablesGo
    rw [h]
  refine ⟨?_, hnull, ?_⟩
  · intro ctx k v h hv
    cases v with
    | null => exact absurd rfl hv
    | bool b => unfold extractVariables extractVariablesGo; rw [h]; rfl
    | num n => unfold extractVariables extractVariablesGo; rw [h]; rfl
    | str s => unfold extractVariables extractVariablesGo; rw [h]; rfl
    | arr xs => unfold extractVariables extractVariablesGo; rw [h]; rfl
    | obj kvs => unfold extractVariables extractVariablesGo; rw [h]; rfl
  · intro ctx k w h1 _h2
    exact hnull ctx k (by simp [lookupLayered, h1])

/-- Witness for C10: on `demoCtx` the static null for `x` shadows the
runtime value 5 and extraction fails; a non-null static binding for `y`
is extracted. -/
theorem C10_null_shadows_extraction_witness :
    extractVariables ["x"] demoCtx =
      .error ("Variable '" ++ "x" ++ "' not found in context. " ++
              "Checked: static, profile, runtime") ∧
    extractVariables ["y"]
      { static := [("y", .num 7)], profile := [], runtime := [] } =
      .ok [("y", .num 7)] :=
  ⟨C10_null_shadows_extraction.2.2 demoCtx "x" (.num 5) rfl rfl,
   C10_null_shadows_extraction.1
     { static := [("y", .num 7)], profile := [], runtime := [] } "y" (.num 7)
     rfl (by intro h; exact JValue.noConfusion h)⟩

end PyScaff

namespace PyScaff

/- ----------------------------------------------------------------------
C7 — form field validation lemmas.
---------------------------------------------------------------------- -/

theorem validateFieldsGo_cons (f : FieldDef) (fs : List FieldDef)
    (inputs acc : Dict) :
    validateFieldsGo (f :: fs) inputs acc =
      match dlookup inputs f.key with
      | none =>
        if f.required then
          .error ("Required field '" ++ f.key ++ "' is missing")
        else
          validateFieldsGo fs inputs acc
      | some v =>
        if f.type != "text" && f.type != "textarea" then
          .error ("Field type '" ++ f.type ++ "' not supported. " ++
                  "Only 'text' and 'textarea' are allowed.")
        else
          match v with
          | .str s => validateFieldsGo fs inputs (dinsert acc f.key (.str s))
          | _ => .error ("Field '" ++ f.key ++ "' must be a string") := rfl

theorem validateFieldsGo_isOk_iff (inputs : Dict) :
    ∀ (fields : List FieldDef) (acc : Dict),
      (validateFieldsGo fields inputs acc).isOk = true ↔
        ∀ f ∈ fields, fieldOk inputs f = true := by
  intro fields
  induction fields with
  | nil =>
    intro acc
    simp [validateFieldsGo, Except.isOk, Except.toBool]
  | cons f fs ih =>
    intro acc
    rw [validateFieldsGo_cons]
    cases hk : dlookup inputs f.key with
    | none =>
      by_cases hr : f.required = true
      · rw [if_pos hr]
        constructor
        · intro h
          exact absurd h (by simp [Except.isOk, Except.toBool])
        · intro hall
          have hf := hall f (List.mem_cons_self f fs)
          rw [fieldOk, hk] at hf
          simp [hr] at hf
      · rw [if_neg hr]
        rw [ih acc]
        constructor
        · intro h g hg
          rcases List.mem_cons.mp hg with rfl | hg2
          · rw [fieldOk, hk]
            simp [Bool.not_eq_true] at hr
            simp [hr]
          · exact h g hg2
        · intro h g hg
          exact h g (List.mem_cons_of_mem f hg)
    | some v =>
      dsimp only
      by_cases ht : (f.type != "text" && f.type != "textarea") = true
      · rw [if_pos ht]
        constructor
        · intro h
          exact absurd h (by simp [Except.isOk, Except.toBool])
        · intro hall
          have hf := hall f (List.mem_cons_self f fs)
          rw [fieldOk, hk] at hf
          simp only [bne, Bool.and_eq_true, Bool.not_eq_true'] at ht
          obtain ⟨ht1, ht2⟩ := ht
          simp [ht1, ht2] at hf
      · rw [if_neg ht]
        cases v with
        | str s =>
          rw [ih (dinsert acc f.key (.str s))]
          have hhead : fieldOk inputs f = true := by
            rw [fieldOk, hk]
            have ht2 : (f.type == "text" || f.type == "textarea") = true := by
              by_contra hc
              simp only [Bool.or_eq_true, not_or, beq_iff_eq] at hc
              obtain ⟨h1, h2⟩ := hc
              exact ht (by simp [h1, h2])
            simp [ht2, JValue.isStr]
          constructor
          · intro h g hg
            rcases List.mem_cons.mp hg with rfl | hg2
            · exact hhead
            · exact h g hg2
          · intro h g hg
            exact h g (List.mem_cons_of_mem f hg)
        | null =>
          constructor
          · intro h
            exact absurd h (by simp [Except.isOk, Except.toBool])
          · intro hall
            have hf := hall f (List.mem_cons_self f fs)
            rw [fieldOk, hk] at hf
            simp [JValue.isStr] at hf
        | bool b =>
          constructor
          · intro h
            exact absurd h (by simp [Except.isOk, Except.toBool])
          · intro hall
            have hf := hall f (List.mem_cons_self f fs)
            rw [fieldOk, hk] at hf
            simp [JValue.isStr] at hf
        | num n =>
          constructor
          · intro h
            exact absurd h (by simp [Except.isOk, Except.toBool])
          · intro hall
            have hf := hall f (List.mem_cons_self f fs)
            rw [fieldOk, hk] at hf
            simp [JValue.isStr] at hf
        | arr xs =>
          constructor
          · intro h
            exact absurd h (by simp [Except.isOk, Except.toBool])
          · intro hall
            have hf := hall f (List.mem_cons_self f fs)
            rw [fieldOk, hk] at hf
            simp [JValue.isStr] at hf
        | obj kvs =>
          constructor
          · intro h
            exact absurd h (by simp [Except.isOk, Except.toBool])
          · intro hall
            have hf := hall f (List.mem_cons_self f fs)
            rw [fieldOk, hk] at hf
            simp [JValue.isStr] at hf

end PyScaff

namespace PyScaff

theorem validateFieldsGo_lookup (inputs : Dict) :
    ∀ (fields : List FieldDef) (acc d : Dict),
      validateFieldsGo fields inputs acc = .ok d →
      ∀ k, dlookup d k =
        if fields.any (fun f => f.key == k) && (dlookup inputs k).isSome then
          dlookup inputs k
        else dlookup acc k := by
  intro fields
  induction fields with
  | nil =>
    intro acc d hd k
    simp only [validateFieldsGo, Except.ok.injEq] at hd
    subst hd
    simp
  | cons f fs ih =>
    intro acc d hd k
    rw [validateFieldsGo_cons] at hd
    cases hk : dlookup inputs f.key with
    | none =>
      rw [hk] at hd
      dsimp only at hd
      by_cases hr : f.required = true
      · rw [if_pos hr] at hd
        exact absurd hd (by simp)
      · rw [if_neg hr] at hd
        have hrec := ih acc d hd k
        rw [hrec]
        by_cases hkey : (f.key == k) = true
        · have hkk : f.key = k := beq_iff_eq.mp hkey
          subst hkk
          rw [hk]
          simp [List.any_cons]
        · simp only [Bool.not_eq_true] at hkey
          simp [List.any_cons, hkey]
    | some v =>
      rw [hk] at hd
      dsimp only at hd
      by_cases ht : (f.type != "text" && f.type != "textarea") = true
      · rw [if_pos ht] at hd
        exact absurd hd (by simp)
      · rw [if_neg ht] at hd
        cases v with
        | str s =>
          have hrec := ih (dinsert acc f.key (.str s)) d hd k
          rw [hrec, dlookup_dinsert]
          by_cases hkey : f.key = k
          · subst hkey
            rw [hk]
            simp [List.any_cons]
          · have hbeq : (f.key == k) = false := by simp [hkey]
            simp [List.any_cons, hbeq, hkey]
        | null => exact absurd hd (by simp)
        | bool b => exact absurd hd (by simp)
        | num n => exact absurd hd (by simp)
        | arr xs => exact absurd hd (by simp)
        | obj kvs => exact absurd hd (by simp)

theorem validateFieldsGo_congr :
    ∀ (fields : List FieldDef) (inputs inputs2 acc : Dict),
      (∀ f ∈ fields, dlookup inputs2 f.key = dlookup inputs f.key) →
      validateFieldsGo fields inputs2 acc = validateFieldsGo fields inputs acc := by
  intro fields
  induction fields with
  | nil => intro inputs inputs2 acc _; rfl
  | cons f fs ih =>
    intro inputs inputs2 acc hagree
    have htail : ∀ g ∈ fs, dlookup inputs2 g.key = dlookup inputs g.key :=
      fun g hg => hagree g (List.mem_cons_of_mem f hg)
    rw [validateFieldsGo_cons, validateFieldsGo_cons,
        hagree f (List.mem_cons_self f fs)]
    cases dlookup inputs f.key with
    | none =>
      dsimp only
      by_cases hr : f.required = true
      · rw [if_pos hr, if_pos hr]
      · rw [if_neg hr, if_neg hr]
        exact ih inputs inputs2 acc htail
    | some v =>
      dsimp only
      by_cases ht : (f.type != "text" && f.type != "textarea") = true
      · rw [if_pos ht, if_pos ht]
      · rw [if_neg ht, if_neg ht]
        cases v with
        | str s => exact ih inputs inputs2 (dinsert acc f.key (.str s)) htail
        | null => rfl
        | bool b => rfl
        | num n => rfl
        | arr xs => rfl
        | obj kvs => rfl

theorem fieldOk_false_iff (inputs : Dict) (f : FieldDef) :
    fieldOk inputs f = false ↔
      (f.required = true ∧ dlookup inputs f.key = none) ∨
      (∃ v, dlookup inputs f.key = some v ∧
         f.type ≠ "text" ∧ f.type ≠ "textarea") ∨
      (∃ v, dlookup inputs f.key = some v ∧ v.isStr = false) := by
  rw [fieldOk]
  cases hk : dlookup inputs f.key with
  | none =>
    simp only [hk]
    constructor
    · intro h
      exact Or.inl ⟨by simpa using h, by trivial⟩
    · intro h
      rcases h with ⟨hr, _⟩ | ⟨v, hv, _⟩ | ⟨v, hv, _⟩
      · simp [hr]
      · exact absurd hv (by simp)
      · exact absurd hv (by simp)
  | some v =>
    simp only [hk]
    constructor
    · intro h
      rcases Bool.and_eq_false_iff.mp h with htype | hstr
      · refine Or.inr (Or.inl ⟨v, rfl, ?_, ?_⟩)
        · intro he
          simp [he] at htype
        · intro he
          simp [he] at htype
      · exact Or.inr (Or.inr ⟨v, rfl, hstr⟩)
    · intro h
      rcases h with ⟨_, hn⟩ | ⟨w, hw, ht1, ht2⟩ | ⟨w, hw, hs⟩
      · exact absurd hn (by simp)
      · have hww : v = w := by injection hw
        subst hww
        have : (f.type == "text" || f.type == "textarea") = false := by
          simp [ht1, ht2]
        simp [this]
      · have hww : v = w := by injection hw
        subst hww
        simp [hs]

/-- C7: `validate_fields` raises Invalid exactly when a required field is
absent, a present field's declared type is outside text/textarea, or a
present value is not a string; a successful validation returns a subset of
the inputs containing every required field, with unknown and absent
optional keys dropped, and validating its own output returns it
unchanged. -/
theorem C7_validate_fields (fields : List FieldDef) (inputs : Dict) :
    ((validateFields fields inputs).isOk = false ↔
       ∃ f ∈ fields,
         (f.required = true ∧ dlookup inputs f.key = none) ∨
         (∃ v, dlookup inputs f.key = some v ∧
            f.type ≠ "text" ∧ f.type ≠ "textarea") ∨
         (∃ v, dlookup inputs f.key = some v ∧ v.isStr = false)) ∧
    (∀ d, validateFields fields inputs = .ok d →
       (∀ k v, dlookup d k = some v → dlookup inputs k = some v) ∧
       (∀ f ∈ fields, f.required = true → ∃ s, dlookup d f.key = some (.str s)) ∧
       (∀ k, (∀ f ∈ fields, f.key ≠ k) → dlookup d k = none) ∧
       validateFields fields d = .ok d) := by
  constructor
  · constructor
    · intro h
      have hno : ¬ ∀ f ∈ fields, fieldOk inputs f = true := by
        rw [← validateFieldsGo_isOk_iff inputs fields []]
        rw [validateFields] at h
        simp [h]
      push_neg at hno
      obtain ⟨f, hf, hne⟩ := hno
      have hff : fieldOk inputs f = false := by
        simpa using hne
      exact ⟨f, hf, (fieldOk_false_iff inputs f).mp hff⟩
    · intro h
      obtain ⟨f, hf, hbad⟩ := h
      have hff : fieldOk inputs f = false := (fieldOk_false_iff inputs f).mpr hbad
      by_contra hok
      simp only [Bool.not_eq_false] at hok
      have hall := (validateFieldsGo_isOk_iff inputs fields []).mp hok
      have := hall f hf
      rw [hff] at this
      exact Bool.false_ne_true this
  · intro d hd
    have hok : (validateFields fields inputs).isOk = true := by rw [hd]; rfl
    have hall := (validateFieldsGo_isOk_iff inputs fields []).mp hok
    have hchar := validateFieldsGo_lookup inputs fields [] d hd
    have hagree : ∀ f ∈ fields, dlookup d f.key = dlookup inputs f.key := by
      intro f hf
      have h := hchar f.key
      have hany : fields.any (fun g => g.key == f.key) = true :=
        List.any_eq_true.mpr ⟨f, hf, by simp⟩
      cases hs : dlookup inputs f.key with
      | none =>
        rw [hs] at h
        simpa [hany] using h
      | some v =>
        rw [hs] at h
        simpa [hany] using h
    refine ⟨?_, ?_, ?_, ?_⟩
    · intro k v hkv
      have h := hchar k
      rw [hkv] at h
      by_cases hc : (fields.any (fun f => f.key == k) &&
          (dlookup inputs k).isSome) = true
      · rw [if_pos hc] at h
        exact h.symm
      · rw [if_neg hc] at h
        exact absurd h (by simp [dlookup])
    · intro f hf hreq
      have hfo := hall f hf
      rw [fieldOk] at hfo
      cases hs : dlookup inputs f.key with
      | none =>
        rw [hs] at hfo
        simp [hreq] at hfo
      | some v =>
        rw [hs] at hfo
        cases v with
        | str s =>
          refine ⟨s, ?_⟩
          rw [hagree f hf, hs]
        | null => simp [JValue.isStr] at hfo
        | bool b => simp [JValue.isStr] at hfo
        | num n => simp [JValue.isStr] at hfo
        | arr xs => simp [JValue.isStr] at hfo
        | obj kvs => simp [JValue.isStr] at hfo
    · intro k hnone
      have h := hchar k
      have hany : fields.any (fun f => f.key == k) = false := by
        by_contra hc
        simp only [Bool.not_eq_false] at hc
        obtain ⟨f, hf, hbeq⟩ := List.any_eq_true.mp hc
        exact hnone f hf (beq_iff_eq.mp hbeq)
      rw [hany] at h
      simpa [dlookup] using h
    · rw [validateFields,
          validateFieldsGo_congr fields inputs d [] hagree, ← validateFields, hd]

/-- Witness for C7: validating the demo form inputs keeps the required
field, drops the extra key, and re-validating the output is the
identity. -/
theorem C7_validate_fields_witness :
    validateFields demoFields demoFormInputs = .ok [("name", .str "d")] ∧
    validateFields demoFields [("name", .str "d")] = .ok [("name", .str "d")] := by
  have h := (C7_validate_fields demoFields demoFormInputs).2
    [("name", .str "d")] (by rfl)
  exact ⟨rfl, h.2.2.2⟩

end PyScaff

namespace PyScaff

/- ----------------------------------------------------------------------
C1 — failure persistence lemmas for the advance loop.
---------------------------------------------------------------------- -/

theorem advanceLoop_stepFailed (env : Env) (steps : List Step) :
    ∀ (fuel : Nat) (run run1 : Run) (hist hist1 : List RunStepRec) (msg : String),
      advanceLoop env steps fuel run hist =
        (run1, hist1, some (.stepFailed msg)) →
      run1.status = "failed" ∧ run1.id = run.id ∧
      ∃ rec ∈ hist1, rec.run_id = run.id ∧ rec.status = "failed" ∧
        rec.error = some msg := by
  intro fuel
  induction fuel with
  | zero =>
    intro run run1 hist hist1 msg h
    rw [advanceLoop] at h
    simp at h
  | succ n ih =>
    intro run run1 hist hist1 msg h
    rw [advanceLoop] at h
    split at h
    · simp at h
    · split at h
      · simp only [Prod.mk.injEq, Option.some.injEq] at h
        exact absurd h.2.2 (by simp)
      · split at h
        · simp only [Prod.mk.injEq, Option.some.injEq,
                     EngineError.stepFailed.injEq] at h
          obtain ⟨h1, h2, h3⟩ := h
          subst h3
          subst h1
          subst h2
          exact ⟨rfl, rfl,
            ⟨_, List.mem_append_right _ (List.mem_singleton_self _),
             rfl, rfl, rfl⟩⟩
        · split at h
          · simp at h
          · split at h
            · simp at h
            · have hrec := ih _ _ _ _ _ h
              exact ⟨hrec.1, hrec.2.1, hrec.2.2⟩

theorem execWorkflow_stepFailed (env : Env) (fuel : Nat) (db : DB) (run : Run)
    (db1 : DB) (msg : String)
    (hmem : run ∈ db.runs)
    (h : execWorkflow env fuel db run = (db1, some (.stepFailed msg))) :
    ∃ r ∈ db1.runs, r.status = "failed" ∧
      ∃ rec ∈ db1.run_steps, rec.run_id = r.id ∧ rec.status = "failed" ∧
        rec.error = some msg := by
  rw [execWorkflow] at h
  split at h
  · simp only [Prod.mk.injEq, Option.some.injEq] at h
    exact absurd h.2 (by simp)
  · next wf hw =>
    cases hadv : advanceLoop env wf.steps fuel run [] with
    | mk run1 rest =>
      obtain ⟨hist1, err⟩ := rest
      rw [hadv] at h
      dsimp only at h
      simp only [Prod.mk.injEq] at h
      obtain ⟨hdb, herr⟩ := h
      subst herr
      have hstep := advanceLoop_stepFailed env wf.steps fuel run run1 [] hist1
        msg hadv
      refine ⟨run1, ?_, hstep.1, ?_⟩
      · rw [← hdb]
        have hfr : (fun r => if r.id = run1.id then run1 else r) run = run1 := by
          show (if run.id = run1.id then run1 else run) = run1
          rw [if_pos hstep.2.1.symm]
        have hm2 := List.mem_map_of_mem
          (fun r => if r.id = run1.id then run1 else r) hmem
        rw [hfr] at hm2
        exact hm2
      · obtain ⟨rec, hrecmem, hrid, hrst, hrerr⟩ := hstep.2.2
        refine ⟨rec, ?_, by rw [hrid]; exact hstep.2.1.symm, hrst, hrerr⟩
        rw [← hdb]
        exact List.mem_append_right _ hrecmem

end PyScaff

namespace PyScaff

theorem resumePrepare_id (db : DB) (run : Run) (inputs : Option Dict)
    (run1 : Run) (h : resumePrepare db run inputs = .ok run1) :
    run1.id = run.id := by
  rw [resumePrepare.eq_def] at h
  dsimp only at h
  repeat' split at h
  all_goals first
    | (simp only [Except.ok.injEq] at h; subst h; rfl)
    | simp at h

theorem resumePrepare_error_shape (db : DB) (run : Run) (inputs : Option Dict)
    (e : EngineError) (h : resumePrepare db run inputs = .error e) :
    ∃ m, e = .resumeValidation m := by
  rw [resumePrepare.eq_def] at h
  dsimp only at h
  repeat' split at h
  all_goals first
    | (simp only [Except.error.injEq] at h; exact ⟨_, h.symm⟩)
    | simp at h

theorem startRunFresh_stepFailed (env : Env) (fuel : Nat) (db : DB)
    (wid : String) (ins : Dict) (idem : Option String) (db1 : DB)
    (msg : String)
    (h : startRun.startRunFresh env fuel db wid ins idem =
      (db1, .error (.stepFailed msg))) :
    ∃ r ∈ db1.runs, r.status = "failed" ∧
      ∃ rec ∈ db1.run_steps, rec.run_id = r.id ∧ rec.status = "failed" ∧
        rec.error = some msg := by
  rw [startRun.startRunFresh] at h
  split at h
  · simp at h
  · next wf hw =>
    dsimp only at h
    split at h
    · next e hexec =>
      simp only [Prod.mk.injEq, Except.error.injEq] at h
      obtain ⟨hdb, he⟩ := h
      subst he
      subst hdb
      exact execWorkflow_stepFailed env fuel _ _ _ msg
        (List.mem_append_right _ (List.mem_singleton_self _))
        (Prod.ext rfl hexec)
    · simp at h

/-- C1: if an executor raises during an advance-loop iteration, the engine
records a failed RunStep carrying the exception message, marks the run
failed, commits both, and re-raises — so after every failing StartRun or
ResumeRun the durable state holds the failed run and its failed history
record. -/
theorem C1_failed_step_persisted :
    (∀ (env : Env) (fuel : Nat) (db : DB) (wid : String) (ins : Dict)
       (idem : Option String) (db1 : DB) (msg : String),
       startRun env fuel db wid ins idem = (db1, .error (.stepFailed msg)) →
       ∃ r ∈ db1.runs, r.status = "failed" ∧
         ∃ rec ∈ db1.run_steps, rec.run_id = r.id ∧ rec.status = "failed" ∧
           rec.error = some msg) ∧
    (∀ (env : Env) (fuel : Nat) (db : DB) (rid : String) (ins : Option Dict)
       (db1 : DB) (msg : String),
       resumeRun env fuel db rid ins = (db1, .error (.stepFailed msg)) →
       ∃ r ∈ db1.runs, r.status = "failed" ∧
         ∃ rec ∈ db1.run_steps, rec.run_id = r.id ∧ rec.status = "failed" ∧
           rec.error = some msg) := by
  constructor
  · intro env fuel db wid ins idem db1 msg h
    rw [startRun.eq_def] at h
    dsimp only at h
    split at h
    · split at h
      · simp at h
      · exact startRunFresh_stepFailed env fuel db wid ins idem db1 msg h
    · exact startRunFresh_stepFailed env fuel db wid ins idem db1 msg h
  · intro env fuel db rid ins db1 msg h
    rw [resumeRun] at h
    split at h
    · simp at h
    · next run hfind =>
      split at h
      · simp at h
      · split at h
        · next e hprep =>
          obtain ⟨m, hm⟩ := resumePrepare_error_shape db run ins e hprep
          subst hm
          simp at h
        · next run1 hprep =>
          dsimp only at h
          split at h
          · next e hexec =>
            simp only [Prod.mk.injEq, Except.error.injEq] at h
            obtain ⟨hdb, he⟩ := h
            subst he
            subst hdb
            have hmem : run1 ∈ (putRun db run1).runs := by
              have hid := resumePrepare_id db run ins run1 hprep
              have hrunmem : run ∈ db.runs :=
                List.mem_of_find?_eq_some hfind
              have hfr : (fun r => if r.id = run1.id then run1 else r) run
                  = run1 := by
                show (if run.id = run1.id then run1 else run) = run1
                rw [if_pos hid.symm]
              have hm2 := List.mem_map_of_mem
                (fun r => if r.id = run1.id then run1 else r) hrunmem
              rw [hfr] at hm2
              exact hm2
            exact execWorkflow_stepFailed env fuel _ _ _ msg hmem
              (Prod.ext rfl hexec)
          · simp at h

/-- Witness for C1: starting the workflow whose conditional expression is
empty raises, and the failed run plus its failed history record are in the
resulting database. -/
theorem C1_failed_step_persisted_witness :
    ∃ r ∈ ((startRun demoEnv 10 demoCondDB "wfc" [] none).1).runs,
      r.status = "failed" ∧
      ∃ rec ∈ ((startRun demoEnv 10 demoCondDB "wfc" [] none).1).run_steps,
        rec.run_id = r.id ∧ rec.status = "failed" ∧
        rec.error = some "Expression cannot be empty" :=
  C1_failed_step_persisted.1 demoEnv 10 demoCondDB "wfc" [] none
    (startRun demoEnv 10 demoCondDB "wfc" [] none).1
    "Expression cannot be empty" rfl

end PyScaff

namespace PyScaff

/- ----------------------------------------------------------------------
C2 / C9 — idempotent start lemmas.
---------------------------------------------------------------------- -/

theorem advanceLoop_preserves (env : Env) (steps : List Step) :
    ∀ (fuel : Nat) (run : Run) (hist : List RunStepRec),
      (advanceLoop env steps fuel run hist).1.id = run.id ∧
      (advanceLoop env steps fuel run hist).1.idempotency_key =
        run.idempotency_key := by
  intro fuel
  induction fuel with
  | zero => intro run hist; exact ⟨rfl, rfl⟩
  | succ n ih =>
    intro run hist
    rw [advanceLoop]
    repeat' split
    all_goals first
      | exact ⟨rfl, rfl⟩
      | exact ih _ _

theorem execWorkflow_runs (env : Env) (fuel : Nat) (db : DB) (run : Run)
    (db1 : DB) (err : Option EngineError)
    (h : execWorkflow env fuel db run = (db1, err)) :
    db1 = db ∨
    ∃ run1 : Run, run1.id = run.id ∧
      run1.idempotency_key = run.idempotency_key ∧
      db1.runs = db.runs.map (fun r => if r.id = run.id then run1 else r) ∧
      db1.workflows = db.workflows ∧
      findRun db1 run.id =
        (db.runs.map (fun r => if r.id = run.id then run1 else r)).find?
          (fun r => r.id = run.id) := by
  rw [execWorkflow] at h
  split at h
  · simp only [Prod.mk.injEq] at h
    exact Or.inl h.1.symm
  · next wf hw =>
    cases hadv : advanceLoop env wf.steps fuel run [] with
    | mk run1 rest =>
      rw [hadv] at h
      dsimp only at h
      simp only [Prod.mk.injEq] at h
      obtain ⟨hdb, _⟩ := h
      have hpres := advanceLoop_preserves env wf.steps fuel run []
      rw [hadv] at hpres
      dsimp only at hpres
      refine Or.inr ⟨run1, hpres.1, hpres.2, ?_, ?_, ?_⟩
      · rw [← hdb]
        show db.runs.map (fun r => if r.id = run1.id then run1 else r) = _
        rw [hpres.1]
      · rw [← hdb]
        rfl
      · rw [← hdb]
        show (db.runs.map (fun r => if r.id = run1.id then run1 else r)).find?
            (fun r => r.id = run.id) = _
        rw [hpres.1]

theorem startRun_keyed_hit (env : Env) (fuel : Nat) (db : DB) (wid : String)
    (ins : Dict) (k : String) (r : Run)
    (hk : k ≠ "") (hfind : findRunByKey db.runs k = some r) :
    startRun env fuel db wid ins (some k) = (db, .ok r) := by
  rw [startRun.eq_def]
  dsimp only
  rw [if_neg hk]
  dsimp only
  rw [hfind]

end PyScaff

namespace PyScaff

theorem map_fresh_append (l : List Run) (run0 run1 : Run)
    (hfresh : ∀ r ∈ l, r.id ≠ run0.id) :
    (l ++ [run0]).map (fun r => if r.id = run0.id then run1 else r) =
      l ++ [run1] := by
  induction l with
  | nil => simp
  | cons a t ih =>
    have ha : a.id ≠ run0.id := hfresh a (List.mem_cons_self a t)
    have ht : ∀ r ∈ t, r.id ≠ run0.id :=
      fun r hr => hfresh r (List.mem_cons_of_mem a hr)
    simp only [List.cons_append, List.map_cons]
    rw [if_neg ha, ih ht]

theorem find_run_append (l : List Run) (run1 : Run) (id0 : String)
    (hfresh : ∀ r ∈ l, r.id ≠ id0) (hid : run1.id = id0) :
    (l ++ [run1]).find? (fun r => r.id = id0) = some run1 := by
  rw [List.find?_append]
  have h1 : l.find? (fun r => r.id = id0) = none :=
    List.find?_eq_none.mpr (fun r hr => by simpa using hfresh r hr)
  rw [h1]
  simp [List.find?, hid]

theorem find_key_append (l : List Run) (run1 : Run) (k : String)
    (hnone : findRunByKey l k = none)
    (hkey : run1.idempotency_key = some k) :
    findRunByKey (l ++ [run1]) k = some run1 := by
  rw [findRunByKey, List.find?_append]
  rw [findRunByKey] at hnone
  rw [hnone]
  simp [List.find?, hkey]

theorem startRun_key_stored (env : Env) (fuel : Nat) (db : DB) (wid : String)
    (ins : Dict) (k : String) (db1 : DB) (r1 : Run)
    (hk : k ≠ "")
    (hnone : findRunByKey db.runs k = none)
    (hfresh : ∀ r ∈ db.runs, r.id ≠ freshRunId db)
    (h : startRun env fuel db wid ins (some k) = (db1, .ok r1)) :
    findRunByKey db1.runs k = some r1 := by
  rw [startRun.eq_def] at h
  dsimp only at h
  rw [if_neg hk] at h
  dsimp only at h
  rw [hnone] at h
  dsimp only at h
  rw [startRun.startRunFresh] at h
  split at h
  · simp at h
  · next wf hw =>
    dsimp only at h
    generalize hrun0 :
      ({ id := freshRunId db, workflow_id := wid,
         workflow_version := wf.version, status := "running",
         current_step := if wf.start_step = "" then none
                         else some wf.start_step,
         context := { static := [], profile := [], runtime := ins },
         idempotency_key := some k } : Run) = run0 at h
    have hid0 : run0.id = freshRunId db := by rw [← hrun0]
    have hkey0 : run0.idempotency_key = some k := by rw [← hrun0]
    have hfresh0 : ∀ r ∈ db.runs, r.id ≠ run0.id := by
      intro r hr
      rw [hid0]
      exact hfresh r hr
    cases hexec : execWorkflow env fuel
        { db with runs := db.runs ++ [run0] } run0 with
    | mk dbx errx =>
      rw [hexec] at h
      dsimp only at h
      cases errx with
      | some e => simp at h
      | none =>
        simp only [Prod.mk.injEq, Except.ok.injEq] at h
        obtain ⟨hdb, hr⟩ := h
        have hshape := execWorkflow_runs env fuel _ _ _ _ hexec
        rcases hshape with hL | ⟨run1, hid1, hkey1, hruns, _hwfs, hfindr⟩
        · have hfr : findRun dbx run0.id = some run0 := by
            rw [hL]
            show (db.runs ++ [run0]).find? (fun r => r.id = run0.id) = some run0
            exact find_run_append db.runs run0 run0.id hfresh0 rfl
          rw [hid0] at hfr
          rw [hfr] at hr
          simp only [Option.getD_some] at hr
          rw [← hdb, hL]
          show findRunByKey (db.runs ++ [run0]) k = some r1
          rw [find_key_append db.runs run0 k hnone hkey0, hr]
        · have hmap :
              ({ db with runs := db.runs ++ [run0] } : DB).runs.map
                (fun r => if r.id = run0.id then run1 else r) =
              db.runs ++ [run1] := by
            show (db.runs ++ [run0]).map
              (fun r => if r.id = run0.id then run1 else r) = db.runs ++ [run1]
            exact map_fresh_append db.runs run0 run1 hfresh0
          rw [hmap] at hruns hfindr
          have hfr : findRun dbx run0.id = some run1 := by
            rw [hfindr]
            exact find_run_append db.runs run1 run0.id hfresh0 hid1
          rw [hid0] at hfr
          rw [hfr] at hr
          simp only [Option.getD_some] at hr
          rw [← hdb]
          show findRunByKey dbx.runs k = some r1
          rw [hruns, find_key_append db.runs run1 k hnone
                (hkey1.trans hkey0), hr]

/-- C2: two StartRun calls with the same idempotency key return the same
run: when a run with the key exists the call returns it verbatim with no
change to the durable state, and after a first keyed call the second call
(with any inputs) returns the first call's run and leaves the state
untouched — no new run, no re-execution, and the returned runtime context
is the one the first call produced. -/
theorem C2_idempotent_start :
    (∀ (env : Env) (fuel : Nat) (db : DB) (wid : String) (ins : Dict)
       (k : String) (r : Run), k ≠ "" → findRunByKey db.runs k = some r →
       startRun env fuel db wid ins (some k) = (db, .ok r)) ∧
    (∀ (env : Env) (fuel fuel2 : Nat) (db : DB) (wid : String)
       (ins1 ins2 : Dict) (k : String) (db1 : DB) (r1 : Run),
       k ≠ "" →
       findRunByKey db.runs k = none →
       (∀ r ∈ db.runs, r.id ≠ freshRunId db) →
       startRun env fuel db wid ins1 (some k) = (db1, .ok r1) →
       startRun env fuel2 db1 wid ins2 (some k) = (db1, .ok r1)) := by
  constructor
  · intro env fuel db wid ins k r hk hfind
    exact startRun_keyed_hit env fuel db wid ins k r hk hfind
  · intro env fuel fuel2 db wid ins1 ins2 k db1 r1 hk hnone hfresh h1
    exact startRun_keyed_hit env fuel2 db1 wid ins2 k r1 hk
      (startRun_key_stored env fuel db wid ins1 k db1 r1 hk hnone hfresh h1)

/-- Witness for C2: on the approval workflow, a second keyed StartRun with
different inputs returns the first call's run and leaves the database
unchanged. -/
theorem C2_idempotent_start_witness :
    startRun demoEnv 10
      ((startRun demoEnv 10 demoDB "wfa" [("a", .num 1)] (some "k")).1)
      "wfa" [("b", .num 2)] (some "k") =
    ((startRun demoEnv 10 demoDB "wfa" [("a", .num 1)] (some "k")).1,
     .ok demoKeyedRun) :=
  C2_idempotent_start.2 demoEnv 10 10 demoDB "wfa" [("a", .num 1)]
    [("b", .num 2)] "k"
    ((startRun demoEnv 10 demoDB "wfa" [("a", .num 1)] (some "k")).1)
    demoKeyedRun (by decide) rfl
    (fun r hr => absurd hr (List.not_mem_nil r)) rfl

/-- C9: the idempotency lookup matches on the key alone and runs before the
workflow-existence check — a keyed StartRun that hits an existing run
returns it even when the supplied workflow id names no stored workflow or
differs from the run's workflow, and no NotFound is raised. -/
theorem C9_key_lookup_before_workflow_check :
    (∀ (env : Env) (fuel : Nat) (db : DB) (wid : String) (ins : Dict)
       (k : String) (r : Run), k ≠ "" → findRunByKey db.runs k = some r →
       findWorkflow db wid = none →
       startRun env fuel db wid ins (some k) = (db, .ok r)) ∧
    (∀ (env : Env) (fuel : Nat) (db : DB) (wid : String) (ins : Dict)
       (k : String) (r : Run), k ≠ "" → findRunByKey db.runs k = some r →
       r.workflow_id ≠ wid →
       startRun env fuel db wid ins (some k) = (db, .ok r)) := by
  constructor
  · intro env fuel db wid ins k r hk hfind _hwf
    exact startRun_keyed_hit env fuel db wid ins k r hk hfind
  · intro env fuel db wid ins k r hk hfind _hne
    exact startRun_keyed_hit env fuel db wid ins k r hk hfind

/-- Witness for C9: a keyed StartRun naming a nonexistent workflow returns
the stored orphan run without raising NotFound. -/
theorem C9_key_lookup_before_workflow_check_witness :
    startRun demoEnv 1 demoOrphanDB "no-such-workflow" [] (some "k") =
      (demoOrphanDB, .ok demoOrphanRun) :=
  C9_key_lookup_before_workflow_check.1 demoEnv 1 demoOrphanDB
    "no-such-workflow" [] "k" demoOrphanRun (by decide) rfl rfl

end PyScaff

namespace PyScaff

/- ----------------------------------------------------------------------
C3 — AI retry loop lemmas.
---------------------------------------------------------------------- -/

theorem aiLoop_allfail (attempt : Nat → Except String JValue)
    (e0 e1 e2 : String) (h0 : attempt 0 = .error e0)
    (h1 : attempt 1 = .error e1) (h2 : attempt 2 = .error e2) :
    aiLoop attempt MAX_RETRIES (MAX_RETRIES + 1) 0 none =
      (.exhausted e2 3, 3) := by
  show aiLoop attempt 2 3 0 none = (.exhausted e2 3, 3)
  simp [aiLoop, h0, h1, h2]

theorem aiLoop_ok_first (attempt : Nat → Except String JValue) (out : JValue)
    (h0 : attempt 0 = .ok out) :
    aiLoop attempt MAX_RETRIES (MAX_RETRIES + 1) 0 none = (.done out 0, 1) := by
  show aiLoop attempt 2 3 0 none = (.done out 0, 1)
  simp [aiLoop, h0]

theorem aiLoop_ok_second (attempt : Nat → Except String JValue)
    (e0 : String) (out : JValue) (h0 : attempt 0 = .error e0)
    (h1 : attempt 1 = .ok out) :
    aiLoop attempt MAX_RETRIES (MAX_RETRIES + 1) 0 none = (.done out 1, 2) := by
  show aiLoop attempt 2 3 0 none = (.done out 1, 2)
  simp [aiLoop, h0, h1]

theorem aiGenerateExecute_allfail (env : Env) (tid : String)
    (vars : List String) (schema : JValue) (ctx : Context) (sid : String)
    (vmap : Dict) (e0 e1 e2 : String)
    (hv : extractVariables vars ctx = .ok vmap)
    (h0 : aiAttempt (env.providerAttempt tid vmap schema)
      (env.schemaCheck schema) 0 = .error e0)
    (h1 : aiAttempt (env.providerAttempt tid vmap schema)
      (env.schemaCheck schema) 1 = .error e1)
    (h2 : aiAttempt (env.providerAttempt tid vmap schema)
      (env.schemaCheck schema) 2 = .error e2) :
    aiGenerateExecute env tid vars schema ctx sid =
      .ok (ctx, [("pause", .bool true), ("waiting_for", .str "manual_fix"),
                 ("error", .str e2), ("retry_count", .num 3)]) := by
  rw [aiGenerateExecute.eq_def, hv]
  dsimp only
  rw [aiLoop_allfail _ e0 e1 e2 h0 h1 h2]
  rfl

theorem pause_head (rest : Dict) (b : Bool) :
    ((dlookup (("pause", JValue.bool b) :: rest) "pause").getD .null).truthy
      = b := by
  simp [dlookup, JValue.truthy]

/-- C3: with `MAX_RETRIES = 2`, when every provider attempt fails (schema
validation, timeout, or provider error) the AI executor makes exactly 3
provider attempts and returns the manual-fix pause with the last error and
`retry_count = 3 ≥ 2`, and the advance loop then marks the run waiting at
the same step rather than failed; a successful attempt instead writes
`context.runtime[<step_id>_output]` and returns pause false with the
output and the retry count. -/
theorem C3_ai_retry_exhaustion :
    (∀ (attempt : Nat → Except String JValue) (e0 e1 e2 : String),
       attempt 0 = .error e0 → attempt 1 = .error e1 →
       attempt 2 = .error e2 →
       aiLoop attempt MAX_RETRIES (MAX_RETRIES + 1) 0 none =
         (.exhausted e2 3, 3) ∧ 2 ≤ 3) ∧
    (∀ (env : Env) (tid : String) (vars : List String) (schema : JValue)
       (ctx : Context) (sid : String) (vmap : Dict) (e0 e1 e2 : String),
       extractVariables vars ctx = .ok vmap →
       aiAttempt (env.providerAttempt tid vmap schema)
         (env.schemaCheck schema) 0 = .error e0 →
       aiAttempt (env.providerAttempt tid vmap schema)
         (env.schemaCheck schema) 1 = .error e1 →
       aiAttempt (env.providerAttempt tid vmap schema)
         (env.schemaCheck schema) 2 = .error e2 →
       aiGenerateExecute env tid vars schema ctx sid =
         .ok (ctx, [("pause", .bool true), ("waiting_for", .str "manual_fix"),
                    ("error", .str e2), ("retry_count", .num 3)])) ∧
    (∀ (env : Env) (tid : String) (vars : List String) (schema : JValue)
       (ctx : Context) (sid : String) (vmap : Dict) (out : JValue),
       extractVariables vars ctx = .ok vmap →
       aiAttempt (env.providerAttempt tid vmap schema)
         (env.schemaCheck schema) 0 = .ok out →
       aiGenerateExecute env tid vars schema ctx sid =
         .ok ({ ctx with runtime := dinsert ctx.runtime (sid ++ "_output") out },
              [("pause", .bool false), ("output", out),
               ("retry_count", .num 0)])) ∧
    (∀ (env : Env) (tid : String) (vars : List String) (schema : JValue)
       (ctx : Context) (sid : String) (vmap : Dict) (e0 : String)
       (out : JValue),
       extractVariables vars ctx = .ok vmap →
       aiAttempt (env.providerAttempt tid vmap schema)
         (env.schemaCheck schema) 0 = .error e0 →
       aiAttempt (env.providerAttempt tid vmap schema)
         (env.schemaCheck schema) 1 = .ok out →
       aiGenerateExecute env tid vars schema ctx sid =
         .ok ({ ctx with runtime := dinsert ctx.runtime (sid ++ "_output") out },
              [("pause", .bool false), ("output", out),
               ("retry_count", .num 1)])) ∧
    (∀ (env : Env) (steps : List Step) (fuel : Nat) (run : Run)
       (hist : List RunStepRec) (cs : String) (step : Step) (tid : String)
       (vars : List String) (schema : JValue) (vmap : Dict) (e0 e1 e2 : String),
       run.current_step = some cs →
       lookupStep steps cs = some step →
       step.type = "ai_generate" →
       step.config = .ai tid vars schema →
       extractVariables vars run.context = .ok vmap →
       aiAttempt (env.providerAttempt tid vmap schema)
         (env.schemaCheck schema) 0 = .error e0 →
       aiAttempt (env.providerAttempt tid vmap schema)
         (env.schemaCheck schema) 1 = .error e1 →
       aiAttempt (env.providerAttempt tid vmap schema)
         (env.schemaCheck schema) 2 = .error e2 →
       advanceLoop env steps (fuel + 1) run hist =
         ({ run with status := "waiting" },
          hist ++ [completedRec run step
            [("pause", .bool true), ("waiting_for", .str "manual_fix"),
             ("error", .str e2), ("retry_count", .num 3)]], none)) := by
  refine ⟨?_, ?_, ?_, ?_, ?_⟩
  · intro attempt e0 e1 e2 h0 h1 h2
    exact ⟨aiLoop_allfail attempt e0 e1 e2 h0 h1 h2, by omega⟩
  · intro env tid vars schema ctx sid vmap e0 e1 e2 hv h0 h1 h2
    exact aiGenerateExecute_allfail env tid vars schema ctx sid vmap e0 e1 e2
      hv h0 h1 h2
  · intro env tid vars schema ctx sid vmap out hv h0
    rw [aiGenerateExecute.eq_def, hv]
    dsimp only
    rw [aiLoop_ok_first _ out h0]
    rfl
  · intro env tid vars schema ctx sid vmap e0 out hv h0 h1
    rw [aiGenerateExecute.eq_def, hv]
    dsimp only
    rw [aiLoop_ok_second _ e0 out h0 h1]
    rfl
  · intro env steps fuel run hist cs step tid vars schema vmap e0 e1 e2
      hcs hls htype hconfig hv h0 h1 h2
    have hstep : executeStep env step run.context =
        .ok (run.context,
          [("pause", .bool true), ("waiting_for", .str "manual_fix"),
           ("error", .str e2), ("retry_count", .num 3)]) := by
      rw [executeStep, htype, hconfig]
      rw [if_neg (by decide), if_pos rfl]
      exact aiGenerateExecute_allfail env tid vars schema run.context
        step.step_id vmap e0 e1 e2 hv h0 h1 h2
    rw [advanceLoop, hcs]
    dsimp only
    rw [hls]
    dsimp only
    rw [hstep]
    dsimp only
    rw [if_pos (pause_head _ true)]

/-- Witness for C3: with the demo environment whose provider always raises,
the AI step with no variables exhausts its retries and pauses. -/
theorem C3_ai_retry_exhaustion_witness :
    aiGenerateExecute demoEnv "tmpl" [] .null
      { static := [], profile := [], runtime := [] } "gen" =
      .ok ({ static := [], profile := [], runtime := [] },
           [("pause", .bool true), ("waiting_for", .str "manual_fix"),
            ("error", .str "provider down"), ("retry_count", .num 3)]) :=
  C3_ai_retry_exhaustion.2.1 demoEnv "tmpl" [] .null
    { static := [], profile := [], runtime := [] } "gen" []
    "provider down" "provider down" "provider down" rfl rfl rfl rfl

end PyScaff

namespace PyScaff

/- ----------------------------------------------------------------------
C4 — run-status invariant: the failing input.
---------------------------------------------------------------------- -/

/-- C4 (failing input): StartRun on the one-step approval workflow waits at
the approval step, but ResumeRun with an approval decision leaves the run
in status `running` with an empty `current_step`: the advance loop only
marks a run completed when the loop itself advances past the last step, so
a resume that advanced past a terminal pause step strands the run —
contradicting the invariant `status = running → current_step non-empty`
(and spec scenario S2, which expects `completed`). -/
theorem C4_running_with_empty_current_step :
    ((startRun demoEnv 10 demoDB "wfa" [] none).2.toOption.map
       (fun r => (r.status, r.current_step)) =
       some ("waiting", some "approval_step")) ∧
    ((resumeRun demoEnv 10 demoWaitingDB "run-0"
        (some [("approval", .obj [("approved", .bool true)])])).2.toOption.map
       (fun r => (r.status, r.current_step)) =
       some ("running", none)) := by
  exact ⟨rfl, rfl⟩

/- ----------------------------------------------------------------------
C6 — approval resume.
---------------------------------------------------------------------- -/

/-- C6 counterexample: resuming the waiting approval run with
`approval = {approved: "no"}` — a string, not a bool — raises no Invalid,
and the decision is recorded as `approved`, because the code only checks
the key's presence and then branches on Python truthiness. -/
theorem C6_counterexample_nonbool_approved :
    ((resumeRun demoEnv 10 demoWaitingDB "run-0"
        (some [("approval", .obj [("approved", .str "no")])])).2.toOption.map
       (fun r => dlookup r.context.runtime "approval_step_approval")) =
      some (some (.obj [("token", .str "tok"),
                        ("approvers", .arr [.str "m@x"]),
                        ("status", .str "approved"),
                        ("comments", .str "")])) := by
  exact rfl

/-- C6 (amended): on resume of a waiting approval step the engine requires
`inputs.approval` to be a dict containing an `approved` key — failing with
Invalid when `approval` is missing, not a dict, or `approved` is absent —
but performs no type check on `approved`: its Python truthiness selects
`approved` versus `rejected` in `context.runtime[<step_id>_approval]`,
`comments` is stored with default `""`, and `current_step` advances to the
step's `next` regardless of the decision, before the advance loop
re-enters. -/
theorem C6_approval_resume (db : DB) (run : Run) (cs : String)
    (wf : Workflow) (st : Step) (ins : Dict)
    (hcs : run.current_step = some cs)
    (hw : findWorkflow db run.workflow_id = some wf)
    (hst : lookupStep wf.steps cs = some st)
    (htype : st.type = "approval")
    (hne : ins.isEmpty = false) :
    (dlookup ins "approval" = none →
       resumePrepare db run (some ins) =
         .error (.resumeValidation "Missing 'approval' key in resume data")) ∧
    (∀ v, dlookup ins "approval" = some v → (∀ kvs, v ≠ .obj kvs) →
       resumePrepare db run (some ins) =
         .error (.resumeValidation "Approval data must be a dictionary")) ∧
    (∀ ad, dlookup ins "approval" = some (.obj ad) →
       dlookup ad "approved" = none →
       resumePrepare db run (some ins) =
         .error (.resumeValidation
           "Missing 'approved' field in approval data")) ∧
    (∀ ad av o, dlookup ins "approval" = some (.obj ad) →
       dlookup ad "approved" = some av →
       dlookup run.context.runtime (cs ++ "_approval") = some (.obj o) →
       resumePrepare db run (some ins) =
         .ok { run with
               status := "running", current_step := st.next,
               context := { run.context with
                 runtime := dupdate
                   (dinsert run.context.runtime (cs ++ "_approval")
                     (.obj (dinsert
                       (dinsert o "status"
                         (.str (if av.truthy then "approved"
                                else "rejected")))
                       "comments"
                       ((dlookup ad "comments").getD (.str "")))))
                   ins } }) := by
  have hopen : ∀ (res : Except EngineError Run),
      (match dlookup ins "approval" with
        | none => .error (.resumeValidation
            "Missing 'approval' key in resume data")
        | some ad =>
          match ad with
          | .obj adFields =>
            match dlookup adFields "approved" with
            | none => .error (.resumeValidation
                "Missing 'approved' field in approval data")
            | some approvedVal =>
              match dlookup run.context.runtime (cs ++ "_approval") with
              | some (.obj o) =>
                .ok { run with
                      status := "running", current_step := st.next,
                      context := { run.context with
                        runtime := dupdate
                          (dinsert run.context.runtime (cs ++ "_approval")
                            (.obj (dinsert
                              (dinsert o "status"
                                (.str (if approvedVal.truthy then "approved"
                                       else "rejected")))
                              "comments"
                              ((dlookup adFields "comments").getD
                                (.str "")))))
                          ins } }
              | some _ => .error (.resumeValidation
                  "TypeError: approval metadata is not a dictionary")
              | none =>
                .ok { run with
                      status := "running", current_step := st.next,
                      context := { run.context with
                        runtime := dupdate run.context.runtime ins } }
          | _ => .error (.resumeValidation
              "Approval data must be a dictionary")) = res →
      resumePrepare db run (some ins) = res := by
    intro res hres
    rw [resumePrepare.eq_def]
    dsimp only
    rw [if_neg (by simp [hne]), hcs]
    dsimp only
    rw [hw]
    dsimp only
    rw [hst]
    dsimp only
    rw [htype]
    rw [if_neg (by decide), if_pos rfl]
    exact hres
  refine ⟨?_, ?_, ?_, ?_⟩
  · intro hnone
    exact hopen _ (by rw [hnone])
  · intro v hv hnob
    apply hopen _
    rw [hv]
    cases v with
    | obj kvs => exact absurd rfl (hnob kvs)
    | null => rfl
    | bool b => rfl
    | num n => rfl
    | str s => rfl
    | arr xs => rfl
  · intro ad hv hnone
    apply hopen _
    rw [hv]
    dsimp only
    rw [hnone]
  · intro ad av o hv happ hrt
    apply hopen _
    rw [hv]
    dsimp only
    rw [happ]
    dsimp only
    rw [hrt]

/-- Witness for C6: a rejection decision on the demo waiting approval run
records `rejected` with its comments default and advances off the terminal
step. -/
theorem C6_approval_resume_witness :
    resumePrepare demoWaitingDB demoWaitingRun
      (some [("approval", .obj [("approved", .bool false)])]) =
    .ok { demoWaitingRun with
          status := "running", current_step := none,
          context := { demoWaitingRun.context with
            runtime := dupdate
              (dinsert demoWaitingRun.context.runtime
                ("approval_step" ++ "_approval")
                (.obj (dinsert
                  (dinsert [("token", .str "tok"),
                            ("approvers", .arr [.str "m@x"]),
                            ("status", .str "pending")] "status"
                    (.str (if (JValue.bool false).truthy then "approved"
                           else "rejected")))
                  "comments"
                  ((dlookup [("approved", .bool false)] "comments").getD
                    (.str "")))))
              [("approval", .obj [("approved", .bool false)])] } } :=
  (C6_approval_resume demoWaitingDB demoWaitingRun "approval_step"
      demoApprovalWf
      { step_id := "approval_step", type := "approval", next := none,
        config := .approval ["m@x"] }
      [("approval", .obj [("approved", .bool false)])]
      rfl rfl rfl rfl rfl).2.2.2
    [("approved", .bool false)] (.bool false)
    [("token", .str "tok"), ("approvers", .arr [.str "m@x"]),
     ("status", .str "pending")] rfl rfl rfl

end PyScaff
